import Mathlib

/-!
Verification of the pysh scripting library against its specification.

The definitions below are shallow embeddings of the Python source in
`src/files/pyshlib.py` (the current library revision; `src/files/pysh.py`
and `src/files/base.py` are near-duplicate earlier revisions of the same
functions).  Python strings are Lean `String`s, Python ints are `Int`,
Python byte strings are `List Nat`, raised exceptions are `Except` errors.
Where the library delegates to the Python standard library (`shlex.split`,
`shlex.join`, `int(...)`, `argparse`) the delegated behaviour is embedded
from the CPython semantics for the constructs the library actually uses.
-/

/-! ## Characters the shell tokenizer cares about -/

/-- The single-quote character. -/
def chSQ : Char := Char.ofNat 39

/-- The double-quote character. -/
def chDQ : Char := Char.ofNat 34

/-- The backslash character. -/
def chBS : Char := Char.ofNat 92

/-- The whitespace set of `shlex` (`' \t\r\n'`). -/
def isShWS (c : Char) : Prop := c = ' ' ∨ c = '\t' ∨ c = '\r' ∨ c = '\n'

instance (c : Char) : Decidable (isShWS c) := by
  unfold isShWS; infer_instance

/-! ## Python `int(str)`

Embeds CPython `int` applied to a string: surrounding whitespace is
stripped, an optional sign is followed by decimal digits in which single
underscores may appear between digits.  Any other shape raises
`ValueError`, modelled as `none`. -/

/-- Whitespace stripped by Python `str.strip()` (ASCII subset). -/
def isPyWS (c : Char) : Bool :=
  c = ' ' || c = '\t' || c = '\n' || c = '\r' || c = '\x0b' || c = '\x0c'

/-- Strip leading and trailing whitespace from a character list. -/
def stripWS (l : List Char) : List Char :=
  ((l.dropWhile isPyWS).reverse.dropWhile isPyWS).reverse

/-- Value of a list of decimal digits, most significant first. -/
def digitsVal (l : List Char) : Nat :=
  l.foldl (fun acc c => acc * 10 + (c.toNat - 48)) 0

/-- After the first digit of a Python integer literal: digits, with single
underscores allowed only between digits.  Returns the digits with the
underscores removed. -/
def pyDigitsRest : List Char → Option (List Char)
  | [] => some []
  | c :: rest =>
    if c = '_' then
      match rest with
      | [] => none
      | d :: rest2 =>
        if d.isDigit then (pyDigitsRest rest2).map (fun l => d :: l) else none
    else if c.isDigit then (pyDigitsRest rest).map (fun l => c :: l)
    else none

/-- Digits of a Python integer literal (no sign): nonempty, starting with a
digit. -/
def pyDigits (l : List Char) : Option (List Char) :=
  match l with
  | [] => none
  | c :: rest =>
    if c.isDigit then (pyDigitsRest rest).map (fun ds => c :: ds) else none

/-- CPython `int(s)` for a string `s`: `some n` on success, `none` when a
`ValueError` is raised. -/
def pyIntOfString (s : String) : Option Int :=
  match stripWS s.data with
  | c :: rest =>
    if c = '+' then (pyDigits rest).map (fun ds => (digitsVal ds : Int))
    else if c = '-' then (pyDigits rest).map (fun ds => -(digitsVal ds : Int))
    else (pyDigits (c :: rest)).map (fun ds => (digitsVal ds : Int))
  | [] => none

/-! ## Python runtime values

The value types that flow through the library: the argument parser stores
strings, ints, bools, lists of strings (variadic positionals) and `None`. -/

/-- A Python runtime value, restricted to the types the library handles. -/
inductive PyVal where
  | vnone
  | vstr (s : String)
  | vint (n : Int)
  | vbool (b : Bool)
  | vlist (l : List String)
deriving DecidableEq, Repr

/-- The declared type of an option, as in Python `type(defval)`. -/
inductive PyType where
  | tnone
  | tstr
  | tint
  | tbool
  | tlist
deriving DecidableEq, Repr

/-- Python `type(v)` for the modelled values. -/
def typeOf : PyVal → PyType
  | .vnone => .tnone
  | .vstr _ => .tstr
  | .vint _ => .tint
  | .vbool _ => .tbool
  | .vlist _ => .tlist

/-- Applying a Python type constructor to a user-supplied token, as
`argparse` does for `type=type(defval)`: `str(s)` is the identity,
`int(s)` parses or raises, `bool(s)` is truthiness of the string (empty
is false, anything else true, with no failure path). -/
def coerce (t : PyType) (s : String) : Option PyVal :=
  match t with
  | .tstr => some (.vstr s)
  | .tint => (pyIntOfString s).map .vint
  | .tbool => some (.vbool (s != ""))
  | .tnone => none
  | .tlist => none

/-! ## `shlex.split` and `shlex.join`

Embedded from CPython `shlex.py` as configured by `shlex.split` (POSIX
mode, `whitespace_split = True`, comments disabled): whitespace separates
tokens; single quotes are literal up to the closing quote; inside double
quotes a backslash escapes only the backslash and the double quote and is
otherwise kept literally; outside quotes a backslash escapes any single
character; an unterminated quote raises `No closing quotation` and a
trailing escape raises `No escaped character`. -/

/-- The state of the `shlex` reader: between tokens, inside a plain word,
inside single or double quotes, or just after an escape character met
outside quotes or inside double quotes. -/
inductive SMode where
  | idle
  | word
  | squote
  | dquote
  | escWord
  | escDouble
deriving DecidableEq, Repr

/-- One pass of the `shlex` reader over the remaining characters.
`cur` is the token accumulated so far, `acc` the tokens already emitted. -/
def splitCore : List Char → SMode → List Char → List String → Except String (List String)
  | [], .idle, _, acc => .ok acc
  | [], .word, cur, acc => .ok (acc ++ [String.mk cur])
  | [], .squote, _, _ => .error "No closing quotation"
  | [], .dquote, _, _ => .error "No closing quotation"
  | [], .escWord, _, _ => .error "No escaped character"
  | [], .escDouble, _, _ => .error "No escaped character"
  | c :: cs, .idle, _, acc =>
    if isShWS c then splitCore cs .idle [] acc
    else if c = chBS then splitCore cs .escWord [] acc
    else if c = chSQ then splitCore cs .squote [] acc
    else if c = chDQ then splitCore cs .dquote [] acc
    else splitCore cs .word [c] acc
  | c :: cs, .word, cur, acc =>
    if isShWS c then splitCore cs .idle [] (acc ++ [String.mk cur])
    else if c = chBS then splitCore cs .escWord cur acc
    else if c = chSQ then splitCore cs .squote cur acc
    else if c = chDQ then splitCore cs .dquote cur acc
    else splitCore cs .word (cur ++ [c]) acc
  | c :: cs, .squote, cur, acc =>
    if c = chSQ then splitCore cs .word cur acc
    else splitCore cs .squote (cur ++ [c]) acc
  | c :: cs, .dquote, cur, acc =>
    if c = chDQ then splitCore cs .word cur acc
    else if c = chBS then splitCore cs .escDouble cur acc
    else splitCore cs .dquote (cur ++ [c]) acc
  | c :: cs, .escWord, cur, acc => splitCore cs .word (cur ++ [c]) acc
  | c :: cs, .escDouble, cur, acc =>
    if c = chBS ∨ c = chDQ then splitCore cs .dquote (cur ++ [c]) acc
    else splitCore cs .dquote (cur ++ [chBS, c]) acc

namespace shlex

/-- `shlex.split(s)`: tokenize `s`; `ValueError` messages are returned as
`Except.error`. -/
def split (s : String) : Except String (List String) :=
  splitCore s.data .idle [] []

/-- A character `shlex.quote` leaves bare (the complement of the CPython
`_find_unsafe` class): ASCII letters and digits, underscore, at sign,
percent, plus, equals, colon, comma, dot, slash and dash. -/
def safeChar (c : Char) : Bool :=
  (('a' ≤ c && c ≤ 'z') || ('A' ≤ c && c ≤ 'Z') || ('0' ≤ c && c ≤ '9')
    || c = '_' || c = '@' || c = '%' || c = '+' || c = '=' || c = ':'
    || c = ',' || c = '.' || c = '/' || c = '-')

/-- The body of a single-quoted token: each single quote in the token is
replaced by the five characters quote, double-quote, quote, double-quote,
quote, as CPython `shlex.quote` does. -/
def escQuote : List Char → List Char
  | [] => []
  | c :: cs =>
    (if c = chSQ then [chSQ, chDQ, chSQ, chDQ, chSQ] else [c]) ++ escQuote cs

/-- CPython `shlex.quote(s)`: the empty string becomes a pair of single
quotes, a string of safe characters is returned unchanged, anything else
is wrapped in single quotes with embedded single quotes escaped. -/
def quote (s : String) : String :=
  if s = "" then String.mk [chSQ, chSQ]
  else if s.data.all safeChar then s
  else String.mk (chSQ :: escQuote s.data ++ [chSQ])

/-- Python `sep.join(parts)`. -/
def strJoin (sep : String) : List String → String
  | [] => ""
  | [t] => t
  | t :: ts => t ++ sep ++ strJoin sep ts

/-- CPython `shlex.join(tokens)`: quote each token and join with single
spaces. -/
def join (ts : List String) : String :=
  strJoin " " (ts.map quote)

end shlex

/-- `PySh.shjoin` (src/files/pyshlib.py): delegates to `shlex.join`. -/
def shjoin (tokens : List String) : String :=
  shlex.join tokens

/-- The character stream a joined token list contributes after its first
token: a separating space, the quoted token, and the rest.  Spelling out
`shlex.join` this way drives the round-trip induction. -/
def sepJoinChars : List String → List Char
  | [] => []
  | t :: ts => ' ' :: (shlex.quote t).data ++ sepJoinChars ts

/-! ## UTF-8 decoding

Embeds Python `str(b, 'utf-8')` (strict errors): standard UTF-8 with
rejection of stray continuation bytes, truncated sequences, overlong
encodings, surrogates and code points above 0x10FFFF. -/

/-- A UTF-8 continuation byte. -/
def utf8Cont (b : Nat) : Bool := 128 ≤ b && b < 192

/-- Strict UTF-8 decoding of a byte list; `none` models a raised
`UnicodeDecodeError`. -/
def utf8Decode : List Nat → Option (List Char)
  | [] => some []
  | b :: rest =>
    if b < 128 then (utf8Decode rest).map (fun l => Char.ofNat b :: l)
    else if b < 192 then none
    else if b < 224 then
      match rest with
      | b2 :: rest2 =>
        if utf8Cont b2 then
          let cp := (b - 192) * 64 + (b2 - 128)
          if 128 ≤ cp then (utf8Decode rest2).map (fun l => Char.ofNat cp :: l)
          else none
        else none
      | [] => none
    else if b < 240 then
      match rest with
      | b2 :: b3 :: rest2 =>
        if utf8Cont b2 && utf8Cont b3 then
          let cp := (b - 224) * 4096 + (b2 - 128) * 64 + (b3 - 128)
          if 2048 ≤ cp && ¬ (55296 ≤ cp ∧ cp ≤ 57343) then
            (utf8Decode rest2).map (fun l => Char.ofNat cp :: l)
          else none
        else none
      | _ => none
    else if b < 245 then
      match rest with
      | b2 :: b3 :: b4 :: rest2 =>
        if utf8Cont b2 && utf8Cont b3 && utf8Cont b4 then
          let cp := (b - 240) * 262144 + (b2 - 128) * 4096 + (b3 - 128) * 64 + (b4 - 128)
          if 65536 ≤ cp && cp ≤ 1114111 then
            (utf8Decode rest2).map (fun l => Char.ofNat cp :: l)
          else none
        else none
      | _ => none
    else none

/-! ## The process runner `PySh.cmd`

`src/files/pyshlib.py` lines 85-102 (`PySh.process` in `src/files/pysh.py`
is character-for-character the same body).  The operating system is passed
in as an oracle mapping an argument vector to the child process outcome;
`subprocess.Popen` + `communicate` deliver exactly that outcome. -/

/-- Outcome of the child process: exit status and fully buffered streams. -/
structure ChildResult where
  returncode : Int
  stdoutBytes : List Nat
  stderrBytes : List Nat

/-- The `command` parameter of `PySh.cmd`: a raw string or a token list. -/
inductive CmdInput where
  | str (s : String)
  | argv (l : List String)

/-- A captured stream as returned to the caller: raw bytes, or text when
`text=True` was requested. -/
inductive StreamData where
  | bytes (b : List Nat)
  | text (s : String)
deriving DecidableEq, Repr

/-- An intercepted Python failure: a keyboard interrupt or an exception
carrying its `str(e)` message. -/
inductive PyFailure where
  | keyboardInterrupt
  | exception (msg : String)
deriving DecidableEq, Repr

/-- `str(e)`/`print(e)` rendering of a failure (a bare `KeyboardInterrupt`
renders as the empty string). -/
def strOfFailure : PyFailure → String
  | .keyboardInterrupt => ""
  | .exception m => m

/-- The back half of `PySh.cmd`: run the argument vector, then decode both
streams as UTF-8 when `text` is true. -/
def cmdRun (exec : List String → ChildResult) (argv : List String) (text : Bool) :
    Except PyFailure (Int × StreamData × StreamData) :=
  let p := exec argv
  if text then
    match utf8Decode p.stdoutBytes, utf8Decode p.stderrBytes with
    | some so, some se =>
      .ok (p.returncode, .text (String.mk so), .text (String.mk se))
    | _, _ => .error (.exception "UnicodeDecodeError")
  else
    .ok (p.returncode, .bytes p.stdoutBytes, .bytes p.stderrBytes)

/-- `PySh.cmd(command, text)`: a string command is first tokenized by
`shlex.split` (whose `ValueError` propagates); the child then runs and the
status is returned together with both captured streams, with no check of
the status anywhere. -/
def cmd (exec : List String → ChildResult) (command : CmdInput) (text : Bool) :
    Except PyFailure (Int × StreamData × StreamData) :=
  match command with
  | .str s =>
    match shlex.split s with
    | .error m => .error (.exception m)
    | .ok ts => cmdRun exec ts text
  | .argv l => cmdRun exec l text

/-! ## The entry-point guard `main_wrap`

`src/files/pyshlib.py` lines 45-53.  The guarded call either returns a
value or raises a failure; the `PY_ERRORS` environment variable (read with
default `false` and lowercased) selects between re-raising and
print-then-exit-1. -/

/-- Python `str.lower()` (ASCII case mapping, which is all the toggle
comparison with the literal `true` can distinguish). -/
def pyLower (s : String) : String :=
  String.mk (s.data.map Char.toLower)

/-- What the guard does with the process: return a value to its caller,
let the failure propagate, or print a line and exit with a status. -/
inductive GuardResult where
  | returned (v : PyVal)
  | raised (f : PyFailure)
  | exited (printed : String) (code : Nat)
deriving DecidableEq, Repr

/-- `main_wrap(_func)`: `envPyErrors` is `os.getenv` of the toggle, `run`
the outcome of calling `_func()`.  The Python body discards the value
`_func()` returns and falls off the end, so on success the guard itself
returns `None`. -/
def main_wrap (envPyErrors : Option String) (run : Except PyFailure PyVal) : GuardResult :=
  match run with
  | .ok _ => .returned .vnone
  | .error e =>
    if pyLower (envPyErrors.getD "false") = "true" then .raised e
    else .exited (strOfFailure e) 1

/-! ## The argument subsystem `ArgumentParserPysh`

`src/files/pyshlib.py` lines 346-402.  The underlying
`argparse.ArgumentParser` is embedded as the ordered list of registered
argument definitions plus the `_positionals_locked` flag; `parse` embeds
`argparse.parse_args` for the argument shapes this library registers
(exact flag tokens with space-separated values; no abbreviations, no
equals-sign form, no double-dash terminator). -/

/-- One registered argument: a single-value positional, a trailing
positional with an `nargs` marker, a `store_true` flag, or an option with
a default value. -/
inductive ArgKind where
  | positionalOne
  | positionalRest (nargs : String)
  | flagTrue
  | optdef (defval : PyVal)
deriving DecidableEq, Repr

/-- A registered argument: the name as handed to `add_argument` (with the
leading dashes for optionals) and its kind. -/
structure ArgDef where
  name : String
  kind : ArgKind
deriving DecidableEq, Repr

/-- The parser state built by `ArgumentParserPysh`: the ordered
registrations and the `_positionals_locked` flag. -/
structure ArgSpec where
  defs : List ArgDef
  positionals_locked : Bool
deriving DecidableEq, Repr

/-- A spec-construction failure (a Python `AssertionError` with its
message; the specification calls these ConfigurationError). -/
inductive ConfigurationError where
  | assertionError (msg : String)
deriving DecidableEq, Repr

namespace ArgumentParserPysh

/-- `ArgumentParserPysh.__init__`: empty parser, lock down. -/
def init : ArgSpec := { defs := [], positionals_locked := false }

/-- The regex `^[a-zA-Z_][a-zA-Z0-9_]*$` from `positionals`. -/
def validPosName (s : String) : Bool :=
  match s.data with
  | [] => false
  | c :: rest => (c.isAlpha || c = '_') && rest.all (fun d => d.isAlphanum || d = '_')

/-- The message of the lock assertion, verbatim from the source. -/
def lockedMsg : String := "INTENRAL FATAL: Positional args can no longer be added."

/-- `ArgumentParserPysh.positionals(*names, rest=..., nargs=...)`
(src/files/pyshlib.py lines 364-378): asserts the spec is not locked, adds
each name as a single-value positional, then, when `rest` is a non-empty
string, validates it and the `nargs` marker, adds the trailing positional
and sets the lock for the variadic markers plus and star. -/
def positionals (spec : ArgSpec) (names : List String) (rest : String) (nargs : String) :
    Except ConfigurationError ArgSpec :=
  if spec.positionals_locked then
    .error (.assertionError lockedMsg)
  else
    let spec1 : ArgSpec :=
      { spec with defs := spec.defs ++ names.map (fun n => ⟨n, .positionalOne⟩) }
    if rest != "" then
      if ¬ validPosName rest then
        .error (.assertionError "Supply a valid name for positional args")
      else if ¬ (["+", "*", "?"].contains nargs) then
        .error (.assertionError "Invalid nargs - use plus or star or question mark")
      else
        .ok { defs := spec1.defs ++ [⟨rest, .positionalRest nargs⟩],
              positionals_locked := ["+", "*"].contains nargs }
    else .ok spec1

/-- The dash-prefix normalization shared by `flags` and `options`: a name
already starting with a double dash is kept, a name starting with a single
dash gets one more dash prepended, and any other name gets a double dash
prepended. -/
def addDashes (l : List Char) : List Char :=
  if l.take 2 = ['-', '-'] then l
  else if l.take 1 = ['-'] then '-' :: l
  else '-' :: '-' :: l

/-- The character map of `flag.replace(chr(95), chr(45))`: underscore
becomes dash. -/
def usc2dash (c : Char) : Char := if c = '_' then '-' else c

/-- The full flag-name normalization of `flags`
(src/files/pyshlib.py lines 381-390): dash prefixing followed by the
underscore-to-dash replacement. -/
def normalize_flag (flag : String) : String :=
  String.mk ((addDashes flag.data).map usc2dash)

/-- `ArgumentParserPysh.flags(*flags)`: register each name, normalized, as
a `store_true` boolean flag. -/
def flags (spec : ArgSpec) (fs : List String) : ArgSpec :=
  { spec with defs := spec.defs ++ fs.map (fun f => ⟨normalize_flag f, .flagTrue⟩) }

/-- `ArgumentParserPysh.options(**opts)` (src/files/pyshlib.py lines
393-402): register each name, dash-prefixed (no underscore replacement
here), as an option whose default fixes the declared type. -/
def options (spec : ArgSpec) (opts : List (String × PyVal)) : ArgSpec :=
  { spec with
    defs := spec.defs ++ opts.map (fun p => ⟨String.mk (addDashes p.1.data), .optdef p.2⟩) }

/-- `argparse` destination of an option string: strip the leading dashes
and turn the remaining dashes into underscores. -/
def destOf (name : String) : String :=
  String.mk ((name.data.dropWhile (fun c => c = '-')).map
    (fun c => if c = '-' then '_' else c))

/-- Whether a registered name is an optional (starts with a dash). -/
def isOptName (s : String) : Bool :=
  match s.data with
  | c :: _ => c == '-'
  | [] => false

/-- Look up an option token among the registered optionals. -/
def findOpt (defs : List ArgDef) (t : String) : Option ArgDef :=
  defs.find? (fun d => d.name == t)

/-- The `argparse` negative-number matcher, the regex
`^-\d+$|^-\d*\.\d+$`: a dash followed by digits, or by digits (possibly
none), a dot and at least one digit. -/
def looksLikeNegNum (t : String) : Bool :=
  match t.data with
  | '-' :: rest =>
    (!rest.isEmpty && rest.all (fun c => c.isDigit))
      || (match rest.dropWhile (fun c => c.isDigit) with
          | '.' :: fp => !fp.isEmpty && fp.all (fun c => c.isDigit)
          | _ => false)
  | _ => false

/-- Whether any registered option string itself looks like a negative
number (`argparse._has_negative_number_optionals`); when one does, the
negative-number exception below is disabled. -/
def hasNegNumOptionals (defs : List ArgDef) : Bool :=
  defs.any (fun d => looksLikeNegNum d.name)

/-- `argparse._parse_optional` as a classification: whether a
command-line token is treated as an option token rather than as a
positional or option value.  In CPython order: the empty token and a
token with no leading dash are values; a registered option string is an
option token; the bare dash is a value; a token matching the
negative-number regex is a value unless some registered option string
also looks like a negative number; a token containing a space is a
value; anything else with a leading dash is an (unknown) option token. -/
def classifiedAsOptional (defs : List ArgDef) (t : String) : Bool :=
  if t == "" then false
  else if !(isOptName t) then false
  else if (defs.find? (fun d => d.name == t)).isSome then true
  else if t.data.length == 1 then false
  else if looksLikeNegNum t && !(hasNegNumOptionals defs) then false
  else if t.data.contains ' ' then false
  else true

/-- First pass of `parse_args` over the tokens: tokens classified as
option tokens are resolved to destination/value assignments (coercing
option values with the declared type, a coercion failure being a usage
error), the other tokens are collected for the positionals.  As in
`argparse`, an option expecting a value refuses a following token that is
itself classified as an option token and fails with the
expected-one-argument usage error. -/
def scanTokens (defs : List ArgDef) (tokens : List String) :
    Except String (List (String × PyVal) × List String) :=
  match tokens with
  | [] => .ok ([], [])
  | t :: rest =>
    if classifiedAsOptional defs t then
      match findOpt defs t with
      | none => .error "unrecognized arguments"
      | some d =>
        match d.kind with
        | .flagTrue =>
          (scanTokens defs rest).map (fun r => ((destOf d.name, PyVal.vbool true) :: r.1, r.2))
        | .optdef dv =>
          match rest with
          | [] => .error "expected one argument"
          | v :: rest2 =>
            if classifiedAsOptional defs v then .error "expected one argument"
            else
              match coerce (typeOf dv) v with
              | none => .error "invalid value"
              | some pv =>
                (scanTokens defs rest2).map (fun r => ((destOf d.name, pv) :: r.1, r.2))
        | _ => .error "unrecognized arguments"
    else
      (scanTokens defs rest).map (fun r => (r.1, t :: r.2))

/-- Second pass of `parse_args`: bind the positional tokens to the
registered positionals in declaration order; a missing required
positional or a leftover token is a usage error; a trailing variadic
positional takes all remaining tokens as a list. -/
def bindPositionals : List ArgDef → List String → Except String (List (String × PyVal))
  | [], [] => .ok []
  | [], _ :: _ => .error "unrecognized arguments"
  | d :: ds, toks =>
    match d.kind with
    | .flagTrue => bindPositionals ds toks
    | .optdef _ => bindPositionals ds toks
    | .positionalOne =>
      match toks with
      | [] => .error "the following arguments are required"
      | t :: ts => (bindPositionals ds ts).map (fun r => (d.name, PyVal.vstr t) :: r)
    | .positionalRest g =>
      if g = "?" then
        match toks with
        | [] => (bindPositionals ds []).map (fun r => (d.name, PyVal.vnone) :: r)
        | t :: ts => (bindPositionals ds ts).map (fun r => (d.name, PyVal.vstr t) :: r)
      else if g = "+" && toks.isEmpty then .error "the following arguments are required"
      else (bindPositionals ds []).map (fun r => (d.name, PyVal.vlist toks) :: r)

/-- The last assignment to a destination wins, as in the `argparse`
namespace object. -/
def lastAssign (assigns : List (String × PyVal)) (k : String) : Option PyVal :=
  match assigns with
  | [] => none
  | (k2, v) :: rest =>
    match lastAssign rest k with
    | some v2 => some v2
    | none => if k2 == k then some v else none

/-- The default value an argument takes when no token sets it: `False` for
a `store_true` flag, the registered default for an option. -/
def defaultOf : ArgDef → PyVal
  | ⟨_, .flagTrue⟩ => .vbool false
  | ⟨_, .optdef dv⟩ => dv
  | _ => .vnone

/-- `ArgumentParserPysh.parse(argv)` / `argparse.parse_args`: scan the
tokens, bind the positionals, and produce the destination-to-value
mapping, defaults filled in for options and flags no token set. -/
def parseArgs (spec : ArgSpec) (tokens : List String) :
    Except String (List (String × PyVal)) :=
  let opts := spec.defs.filter (fun d => isOptName d.name)
  let poss := spec.defs.filter (fun d => !(isOptName d.name))
  match scanTokens opts tokens with
  | .error e => .error e
  | .ok (assigns, posToks) =>
    match bindPositionals poss posToks with
    | .error e => .error e
    | .ok pbinds =>
      .ok (spec.defs.map (fun d =>
        if isOptName d.name then
          (destOf d.name, (lastAssign assigns (destOf d.name)).getD (defaultOf d))
        else
          (d.name, (lastAssign pbinds d.name).getD PyVal.vnone)))

end ArgumentParserPysh

namespace UserPysh

/-- `UserPysh.choose(prompt, options)` (src/files/pyshlib.py lines
314-331) after the response line has been read: `int(res)` parses the
response or raises `ValueError`; an in-range number selects the
corresponding option, anything else raises `ValueError` with the message
`Out of range`. -/
def choose (options : List String) (response : String) : Except String String :=
  match pyIntOfString response with
  | none => .error "invalid literal for int"
  | some n =>
    if h : 0 < n ∧ n ≤ (options.length : Int) then
      .ok (options.get ⟨(n - 1).toNat, by omega⟩)
    else .error "Out of range"

end UserPysh

/-! ## Theorems -/

open ArgumentParserPysh UserPysh

/-- C1: for every wrapped function that raises an exception or a keyboard
interrupt, `main_wrap` intercepts the failure and decides by the
environment toggle: when the toggle value lowercased equals `true` the
original failure is rethrown unchanged, and for any other value
(including unset, which defaults to `false`) the guard prints the one-line
`str(e)` description of the failure and exits with status 1. -/
theorem main_wrap_failure_toggle (env : Option String) (f : PyFailure) :
    (pyLower (env.getD "false") = "true" →
      main_wrap env (.error f) = .raised f)
    ∧ (pyLower (env.getD "false") ≠ "true" →
      main_wrap env (.error f) = .exited (strOfFailure f) 1) := by
  constructor <;> intro h <;> simp [main_wrap, h]

/-- Witness for C1: with `PY_ERRORS=TRUE` the failure with message `boom`
is rethrown; with the variable unset the guard prints `boom` and exits 1. -/
theorem main_wrap_failure_toggle_witness :
    main_wrap (some "TRUE") (Except.error (PyFailure.exception "boom"))
      = GuardResult.raised (PyFailure.exception "boom")
    ∧ main_wrap none (Except.error (PyFailure.exception "boom"))
      = GuardResult.exited "boom" 1 :=
  ⟨(main_wrap_failure_toggle (some "TRUE") (PyFailure.exception "boom")).1 (by decide),
   (main_wrap_failure_toggle none (PyFailure.exception "boom")).2 (by decide)⟩

/-- C8 counterexample: a wrapped function that returns the value 5 does
not get that value back from the guard — the Python body of `main_wrap`
discards the result of `_func()`. -/
theorem main_wrap_discards_value :
    main_wrap none (Except.ok (PyVal.vint 5)) ≠ GuardResult.returned (PyVal.vint 5) := by
  decide

/-- C8 (amended): if the wrapped function returns normally, the guard
returns normally without any interception, but it discards the wrapped
function's return value and itself returns `None` (so the process then
ends with exit status 0 under the standard top-level usage). -/
theorem main_wrap_normal_return (env : Option String) (v : PyVal) :
    main_wrap env (Except.ok v) = GuardResult.returned PyVal.vnone := rfl

/-- C4: `cmd` returns the child's real exit status together with both
captured streams — in bytes mode always, in text mode whenever the
streams decode — and never produces an error because the status is
non-zero (the status, whatever it is, is handed to the caller); a string
command is tokenized by `shlex.split` and then treated exactly like the
token-list form. -/
theorem cmd_returns_real_status (ex : List String → ChildResult) (argv : List String) :
    (cmd ex (.argv argv) false
      = .ok ((ex argv).returncode, .bytes (ex argv).stdoutBytes, .bytes (ex argv).stderrBytes))
    ∧ (∀ so se, utf8Decode (ex argv).stdoutBytes = some so →
        utf8Decode (ex argv).stderrBytes = some se →
        cmd ex (.argv argv) true
          = .ok ((ex argv).returncode, .text (String.mk so), .text (String.mk se)))
    ∧ (∀ s ts, shlex.split s = .ok ts → cmd ex (.str s) false = cmd ex (.argv ts) false) := by
  refine ⟨rfl, ?_, ?_⟩
  · intro so se hso hse
    simp [cmd, cmdRun, hso, hse]
  · intro s ts hs
    simp [cmd, hs]

/-- Witness for C4: a child that exits with status 1 and writes the bytes
of `hi` to stdout is reported as status 1 with its streams, in bytes mode
and in text mode, with no error raised. -/
theorem cmd_returns_real_status_witness :
    cmd (fun _ => ⟨1, [104, 105], []⟩) (.argv ["false"]) false
      = .ok (1, .bytes [104, 105], .bytes [])
    ∧ cmd (fun _ => ⟨1, [104, 105], []⟩) (.argv ["false"]) true
      = .ok (1, .text (String.mk ['h', 'i']), .text (String.mk [])) :=
  ⟨(cmd_returns_real_status (fun _ => ⟨1, [104, 105], []⟩) ["false"]).1,
   (cmd_returns_real_status (fun _ => ⟨1, [104, 105], []⟩) ["false"]).2.1
     ['h', 'i'] [] (by decide) (by decide)⟩

/-- C2: registering a variadic positional (`nargs` plus or star) locks the
spec, and every subsequent `positionals` call on the locked spec raises
the `ConfigurationError` assertion, whatever it tries to register. -/
theorem positionals_variadic_locks (spec : ArgSpec) (names : List String)
    (rest nargs : String) (spec2 : ArgSpec)
    (hok : positionals spec names rest nargs = .ok spec2)
    (hvar : nargs = "+" ∨ nargs = "*") (hrest : rest ≠ "") :
    spec2.positionals_locked = true
    ∧ ∀ names2 rest2 nargs2,
        positionals spec2 names2 rest2 nargs2
          = .error (.assertionError lockedMsg) := by
  unfold positionals at hok
  split at hok
  · exact absurd hok (by simp)
  · have hrest2 : (rest != "") = true := by
      simpa using hrest
    rw [if_pos hrest2] at hok
    split at hok
    · exact absurd hok (by simp)
    · split at hok
      · exact absurd hok (by simp)
      · have hspec2 : spec2.positionals_locked = (["+", "*"].contains nargs) := by
          cases hok
          rfl
        have hlocked : spec2.positionals_locked = true := by
          rw [hspec2]
          rcases hvar with h | h <;> subst h <;> decide
        refine ⟨hlocked, ?_⟩
        intro names2 rest2 nargs2
        unfold positionals
        rw [if_pos hlocked]

/-- C3: for an option registered with the integer default 22, parsing with
no override yields the integer 22, parsing with the override token `2222`
yields the integer 2222, and parsing with the override token `abc` fails
with a usage error. -/
theorem options_int_coercion :
    parseArgs (options init [("port", PyVal.vint 22)]) []
      = .ok [("port", PyVal.vint 22)]
    ∧ parseArgs (options init [("port", PyVal.vint 22)]) ["--port", "2222"]
      = .ok [("port", PyVal.vint 2222)]
    ∧ ∃ e, parseArgs (options init [("port", PyVal.vint 22)]) ["--port", "abc"]
      = .error e :=
  ⟨rfl, rfl, "invalid value", rfl⟩

/-- C7 counterexample: for an option registered with a boolean default,
the non-boolean override token `abc` is not rejected — the parse succeeds
and stores `True`, because Python `bool` applied to any non-empty string
is `True`. -/
theorem options_bool_accepts_nonbool :
    parseArgs (options init [("dry", PyVal.vbool false)]) ["--dry", "abc"]
      = .ok [("dry", PyVal.vbool true)]
    ∧ (parseArgs (options init [("dry", PyVal.vbool false)]) ["--dry", "abc"]).isOk
      = true :=
  ⟨rfl, rfl⟩

/-- When the token scan and the positional binding both succeed,
`parseArgs` returns the assembled destination-to-value mapping. -/
theorem parseArgs_ok_of_scan (spec : ArgSpec) (tokens : List String)
    (assigns : List (String × PyVal)) (posToks : List String)
    (pbinds : List (String × PyVal))
    (hscan : scanTokens (spec.defs.filter (fun d => isOptName d.name)) tokens
      = .ok (assigns, posToks))
    (hbind : bindPositionals (spec.defs.filter (fun d => !(isOptName d.name))) posToks
      = .ok pbinds) :
    parseArgs spec tokens = .ok (spec.defs.map (fun d =>
      if isOptName d.name then
        (destOf d.name, (lastAssign assigns (destOf d.name)).getD (defaultOf d))
      else
        (d.name, (lastAssign pbinds d.name).getD PyVal.vnone))) := by
  simp only [parseArgs, hscan, hbind]

/-- When the token scan fails, `parseArgs` fails with the same usage
error. -/
theorem parseArgs_err_of_scan (spec : ArgSpec) (tokens : List String) (e : String)
    (hscan : scanTokens (spec.defs.filter (fun d => isOptName d.name)) tokens
      = .error e) :
    parseArgs spec tokens = .error e := by
  simp only [parseArgs]
  rw [hscan]

/-- C7 (amended): for an option registered with a boolean default, parse
coerces every override token the parser accepts as the option's value by
Python truthiness — the empty token yields false and every other accepted
token (including the word False) yields true — so booleanness is never
checked; the only tokens rejected are those classified as option tokens
themselves, refused with the expected-one-argument usage error before any
coercion. -/
theorem options_bool_truthiness (b : Bool) (t : String) :
    (classifiedAsOptional [⟨"--dry", ArgKind.optdef (PyVal.vbool b)⟩] t = false →
      parseArgs (options init [("dry", PyVal.vbool b)]) ["--dry", t]
        = .ok [("dry", PyVal.vbool (t != ""))])
    ∧ (classifiedAsOptional [⟨"--dry", ArgKind.optdef (PyVal.vbool b)⟩] t = true →
      parseArgs (options init [("dry", PyVal.vbool b)]) ["--dry", t]
        = .error "expected one argument") := by
  have hite : scanTokens
      ((options init [("dry", PyVal.vbool b)]).defs.filter (fun d => isOptName d.name))
      ["--dry", t]
      = if classifiedAsOptional [⟨"--dry", ArgKind.optdef (PyVal.vbool b)⟩] t = true
        then Except.error "expected one argument"
        else Except.ok ([("dry", PyVal.vbool (t != ""))], []) := rfl
  constructor
  · intro ht
    have hscan : scanTokens
        ((options init [("dry", PyVal.vbool b)]).defs.filter (fun d => isOptName d.name))
        ["--dry", t] = .ok ([("dry", PyVal.vbool (t != ""))], []) := by
      rw [hite, ht]
      simp
    have happ := parseArgs_ok_of_scan (options init [("dry", PyVal.vbool b)])
      ["--dry", t] [("dry", PyVal.vbool (t != ""))] [] [] hscan rfl
    rw [happ]
    rfl
  · intro ht
    have hscan : scanTokens
        ((options init [("dry", PyVal.vbool b)]).defs.filter (fun d => isOptName d.name))
        ["--dry", t] = .error "expected one argument" := by
      rw [hite, ht]
      simp
    exact parseArgs_err_of_scan (options init [("dry", PyVal.vbool b)])
      ["--dry", t] "expected one argument" hscan

/-- Witness for C7 (amended): the accepted token x coerces to true, and
the option-looking token dash-x is refused with the expected-one-argument
usage error rather than coerced. -/
theorem options_bool_truthiness_witness :
    parseArgs (options init [("dry", PyVal.vbool false)]) ["--dry", "x"]
      = .ok [("dry", PyVal.vbool true)]
    ∧ parseArgs (options init [("dry", PyVal.vbool false)]) ["--dry", "-x"]
      = .error "expected one argument" :=
  ⟨(options_bool_truthiness false "x").1 rfl,
   (options_bool_truthiness false "-x").2 rfl⟩

/-- C10: in `choose`, a response parsing as an integer n with
1 ≤ n ≤ number of offered options returns the n-th offered option, and a
response parsing as any integer outside that range raises `ValueError`
with message `Out of range` — the bound is the number of offered options. -/
theorem choose_range (options : List String) (resp : String) (n : Int)
    (hres : pyIntOfString resp = some n) (hne : options ≠ []) :
    (∀ v, 1 ≤ n → options.get? (n - 1).toNat = some v →
      choose options resp = .ok v)
    ∧ ((n ≤ 0 ∨ (options.length : Int) < n) →
      choose options resp = .error "Out of range") := by
  constructor
  · intro v h1 h2
    obtain ⟨hlt, hv⟩ := List.get?_eq_some.mp h2
    have hcond : 0 < n ∧ n ≤ (options.length : Int) := ⟨by omega, by omega⟩
    simp only [choose, hres]
    rw [dif_pos hcond]
    exact congrArg Except.ok hv
  · intro h
    simp only [choose, hres]
    rw [dif_neg (by omega)]

/-- Witness for C10: among three options, response `2` selects the second
option, and response `4` is out of range. -/
theorem choose_range_witness :
    choose ["a", "b", "c"] "2" = .ok "b"
    ∧ choose ["a", "b", "c"] "4" = .error "Out of range" :=
  ⟨(choose_range ["a", "b", "c"] "2" 2 rfl (by simp)).1 "b" (by norm_num) rfl,
   (choose_range ["a", "b", "c"] "4" 4 rfl (by simp)).2 (by norm_num)⟩

/-- The dash-prefix step always yields a list starting with two dashes. -/
theorem addDashes_shape (l : List Char) :
    ∃ t, addDashes l = '-' :: '-' :: t := by
  unfold addDashes
  split
  · rename_i h
    refine ⟨l.drop 2, ?_⟩
    conv_lhs => rw [← List.take_append_drop 2 l, h]
    rfl
  · split
    · rename_i h1 h2
      refine ⟨l.drop 1, ?_⟩
      conv_lhs => rw [← List.take_append_drop 1 l, h2]
      rfl
    · exact ⟨l, rfl⟩

/-- The underscore-to-dash map is pointwise idempotent. -/
theorem usc2dash_idem (c : Char) : usc2dash (usc2dash c) = usc2dash c := by
  unfold usc2dash
  by_cases h : c = '_'
  · simp [h]
  · simp [h]

/-- C5: flag-name normalization is idempotent — normalizing an
already-normalized name, whatever the input name looked like, yields the
same name. -/
theorem normalize_flag_idem (s : String) :
    normalize_flag (normalize_flag s) = normalize_flag s := by
  obtain ⟨t, ht⟩ := addDashes_shape s.data
  have husc : usc2dash '-' = '-' := rfl
  have hdata : (normalize_flag s).data = '-' :: '-' :: t.map usc2dash := by
    simp [normalize_flag, ht, husc]
  have hnoop : addDashes ((normalize_flag s).data) = (normalize_flag s).data := by
    rw [hdata]
    simp [addDashes]
  have hmap : (t.map usc2dash).map usc2dash = t.map usc2dash := by
    rw [List.map_map]
    exact List.map_congr_left (fun c _ => usc2dash_idem c)
  have houter : (normalize_flag (normalize_flag s)).data
      = (addDashes (normalize_flag s).data).map usc2dash := by
    simp [normalize_flag]
  apply String.ext
  rw [houter, hnoop, hdata]
  simp [husc, hmap]

/-- C6 counterexample: the name consisting of a single dash and the letter
v is not left unchanged as a short flag — normalization prepends one more
dash and produces the double-dash name. -/
theorem normalize_flag_single_dash_changed :
    normalize_flag (String.mk ['-', 'v']) ≠ String.mk ['-', 'v']
    ∧ normalize_flag (String.mk ['-', 'v']) = String.mk ['-', '-', 'v'] := by
  constructor
  · intro h
    exact absurd (congrArg String.data h) (by simp [normalize_flag, addDashes, usc2dash])
  · rfl

/-- C6 (amended): normalization maps a bare word (no leading dash) to that
word prefixed with a double dash, maps a name with a single leading dash
to that name with one more dash prepended (turning it into a double-dash
name, rather than preserving it), adds no dash to a name that already
starts with a double dash, and in every case then replaces underscores
with dashes. -/
theorem normalize_flag_cases (s : String) :
    (∀ l, s.data = '-' :: '-' :: l →
      normalize_flag s = String.mk ('-' :: '-' :: l.map usc2dash))
    ∧ (∀ l, s.data = '-' :: l → l.take 1 ≠ ['-'] →
      normalize_flag s = String.mk ('-' :: '-' :: l.map usc2dash))
    ∧ (s.data.take 1 ≠ ['-'] →
      normalize_flag s = String.mk ('-' :: '-' :: s.data.map usc2dash)) := by
  have husc : usc2dash '-' = '-' := rfl
  refine ⟨?_, ?_, ?_⟩
  · intro l hl
    simp [normalize_flag, addDashes, hl, husc]
  · intro l hl hl1
    have htake : s.data.take 2 ≠ ['-', '-'] := by
      rw [hl]
      intro hcontra
      apply hl1
      have := congrArg (List.drop 1) hcontra
      simpa using this
    simp [normalize_flag, addDashes, htake, hl, hl1, husc]
  · intro h1
    have htake : s.data.take 2 ≠ ['-', '-'] := by
      intro hcontra
      apply h1
      have hstep := congrArg (List.take 1) hcontra
      rw [List.take_take] at hstep
      simpa using hstep
    simp [normalize_flag, addDashes, htake, h1, husc]

/-- Witness for C6: the single-dash name dash-v falls under the
single-leading-dash case and normalizes to the double-dash name; the bare
word v falls under the bare-word case. -/
theorem normalize_flag_cases_witness :
    normalize_flag (String.mk ['-', 'v']) = String.mk ('-' :: '-' :: ['v'].map usc2dash)
    ∧ normalize_flag (String.mk ['v']) = String.mk ('-' :: '-' :: ['v'].map usc2dash) :=
  ⟨(normalize_flag_cases (String.mk ['-', 'v'])).2.1 ['v'] rfl (by simp),
   (normalize_flag_cases (String.mk ['v'])).2.2 (by simp)⟩

/-- Witness for C2: registering the one-or-more variadic `rest` on a fresh
spec succeeds and locks it, and a subsequent positional registration on
the resulting spec raises the lock assertion. -/
theorem positionals_variadic_locks_witness :
    (⟨[⟨"rest", ArgKind.positionalRest "+"⟩], true⟩ : ArgSpec).positionals_locked = true
    ∧ positionals ⟨[⟨"rest", ArgKind.positionalRest "+"⟩], true⟩ ["x"] "" ""
        = .error (.assertionError lockedMsg) :=
  ⟨(positionals_variadic_locks init [] "rest" "+"
      ⟨[⟨"rest", ArgKind.positionalRest "+"⟩], true⟩ rfl (Or.inl rfl) (by simp)).1,
   (positionals_variadic_locks init [] "rest" "+"
      ⟨[⟨"rest", ArgKind.positionalRest "+"⟩], true⟩ rfl (Or.inl rfl) (by simp)).2
     ["x"] "" ""⟩

/-! ## The split/join round trip (C9) -/

/-- A safe character is none of the characters the tokenizer treats
specially: not whitespace, not the escape character, not a quote. -/
theorem safeChar_not_special (c : Char) (h : shlex.safeChar c = true) :
    ¬ isShWS c ∧ c ≠ chBS ∧ c ≠ chSQ ∧ c ≠ chDQ := by
  refine ⟨?_, ?_, ?_, ?_⟩
  · intro hw
    rcases hw with h1 | h1 | h1 | h1 <;> subst h1 <;> revert h <;> decide
  · intro h1; subst h1; revert h; decide
  · intro h1; subst h1; revert h; decide
  · intro h1; subst h1; revert h; decide

/-- One reader step in word mode over a safe character appends it to the
current token. -/
theorem splitCore_word_safe (c : Char) (hc : shlex.safeChar c = true)
    (cs : List Char) (cur : List Char) (acc : List String) :
    splitCore (c :: cs) .word cur acc = splitCore cs .word (cur ++ [c]) acc := by
  obtain ⟨hw, hb, hs, hd⟩ := safeChar_not_special c hc
  simp only [splitCore]
  rw [if_neg hw, if_neg hb, if_neg hs, if_neg hd]

/-- A run of safe characters in word mode is appended wholesale to the
current token. -/
theorem splitCore_safe_run (l : List Char) (hl : l.all shlex.safeChar = true)
    (cs : List Char) (cur : List Char) (acc : List String) :
    splitCore (l ++ cs) .word cur acc = splitCore cs .word (cur ++ l) acc := by
  induction l generalizing cur with
  | nil => simp
  | cons c l2 ih =>
    simp only [List.all_cons, Bool.and_eq_true] at hl
    rw [List.cons_append, splitCore_word_safe c hl.1, ih hl.2]
    simp

/-- Consuming the single-quote-escaped body of a token followed by the
closing quote carries the reader from inside single quotes back to word
mode with the token appended. -/
theorem splitCore_escBody (l : List Char) (cs : List Char)
    (cur : List Char) (acc : List String) :
    splitCore (shlex.escQuote l ++ (chSQ :: cs)) .squote cur acc
      = splitCore cs .word (cur ++ l) acc := by
  induction l generalizing cur with
  | nil =>
    show splitCore (chSQ :: cs) .squote cur acc = _
    simp [splitCore]
  | cons c l2 ih =>
    by_cases hc : c = chSQ
    · subst hc
      show splitCore
          (chSQ :: chDQ :: chSQ :: chDQ :: chSQ :: (shlex.escQuote l2 ++ (chSQ :: cs)))
          .squote cur acc = _
      have hstep : splitCore
          (chSQ :: chDQ :: chSQ :: chDQ :: chSQ :: (shlex.escQuote l2 ++ (chSQ :: cs)))
          .squote cur acc
          = splitCore (shlex.escQuote l2 ++ (chSQ :: cs)) .squote (cur ++ [chSQ]) acc := by
        rfl
      rw [hstep, ih]
      simp
    · show splitCore ((if c = chSQ then _ else [c]) ++ _ ++ _) .squote cur acc = _
      rw [if_neg hc]
      show splitCore (c :: (shlex.escQuote l2 ++ (chSQ :: cs))) .squote cur acc = _
      have hstep : splitCore (c :: (shlex.escQuote l2 ++ (chSQ :: cs))) .squote cur acc
          = splitCore (shlex.escQuote l2 ++ (chSQ :: cs)) .squote (cur ++ [c]) acc := by
        simp only [splitCore]
        rw [if_neg hc]
      rw [hstep, ih]
      simp

/-- String concatenation concatenates the character lists. -/
theorem str_data_append (a b : String) : (a ++ b).data = a.data ++ b.data := rfl

/-- One reader step from between tokens over a safe character starts a
word with it. -/
theorem splitCore_idle_safe (c : Char) (hc : shlex.safeChar c = true)
    (cs : List Char) (cur : List Char) (acc : List String) :
    splitCore (c :: cs) .idle cur acc = splitCore cs .word [c] acc := by
  obtain ⟨hw, hb, hs, hd⟩ := safeChar_not_special c hc
  simp only [splitCore]
  rw [if_neg hw, if_neg hb, if_neg hs, if_neg hd]

/-- Consuming one quoted token from between tokens leaves the reader in
word mode holding exactly that token. -/
theorem quote_consume (t : String) (cs : List Char) (acc : List String) :
    splitCore ((shlex.quote t).data ++ cs) .idle [] acc
      = splitCore cs .word t.data acc := by
  by_cases h1 : t = ""
  · subst h1
    show splitCore (chSQ :: chSQ :: cs) .idle [] acc = _
    rfl
  · by_cases h2 : t.data.all shlex.safeChar = true
    · have hq : shlex.quote t = t := by
        rw [shlex.quote, if_neg h1, if_pos h2]
      rw [hq]
      have hnil : t.data ≠ [] := fun h => h1 (String.ext h)
      rcases hd : t.data with _ | ⟨c, l⟩
      · exact absurd hd hnil
      · have hall : (c :: l).all shlex.safeChar = true := by rw [← hd]; exact h2
        simp only [List.all_cons, Bool.and_eq_true] at hall
        rw [List.cons_append, splitCore_idle_safe c hall.1,
          splitCore_safe_run l hall.2]
        rfl
    · have hq : (shlex.quote t).data = chSQ :: shlex.escQuote t.data ++ [chSQ] := by
        rw [shlex.quote, if_neg h1, if_neg h2]
      rw [hq]
      have hassoc : (chSQ :: shlex.escQuote t.data ++ [chSQ]) ++ cs
          = chSQ :: (shlex.escQuote t.data ++ (chSQ :: cs)) := by
        simp
      rw [hassoc]
      have hopen : splitCore (chSQ :: (shlex.escQuote t.data ++ (chSQ :: cs))) .idle [] acc
          = splitCore (shlex.escQuote t.data ++ (chSQ :: cs)) .squote [] acc := rfl
      rw [hopen, splitCore_escBody]
      rfl

/-- After the first token, the reader in word mode consumes the rest of
the joined stream and emits all remaining tokens. -/
theorem splitCore_sepJoin (ts : List String) (cur : List Char) (acc : List String) :
    splitCore (sepJoinChars ts) .word cur acc = .ok (acc ++ String.mk cur :: ts) := by
  induction ts generalizing cur acc with
  | nil => rfl
  | cons t ts ih =>
    show splitCore (' ' :: ((shlex.quote t).data ++ sepJoinChars ts)) .word cur acc = _
    have hws : splitCore (' ' :: ((shlex.quote t).data ++ sepJoinChars ts)) .word cur acc
        = splitCore ((shlex.quote t).data ++ sepJoinChars ts) .idle []
            (acc ++ [String.mk cur]) := rfl
    rw [hws, quote_consume, ih]
    have hmk : String.mk t.data = t := String.ext rfl
    rw [hmk]
    simp

/-- The characters of a joined non-empty token list: the first quoted
token followed by the separated rest. -/
theorem join_data (t : String) (ts : List String) :
    (shlex.join (t :: ts)).data = (shlex.quote t).data ++ sepJoinChars ts := by
  induction ts generalizing t with
  | nil => simp [shlex.join, shlex.strJoin, sepJoinChars]
  | cons t2 ts ih =>
    have hstep : shlex.strJoin " " (shlex.quote t :: shlex.quote t2 :: ts.map shlex.quote)
        = shlex.quote t ++ " " ++ shlex.strJoin " " (shlex.quote t2 :: ts.map shlex.quote) :=
      rfl
    show (shlex.strJoin " " (shlex.quote t :: shlex.quote t2 :: ts.map shlex.quote)).data = _
    rw [hstep, str_data_append, str_data_append]
    have hrest : shlex.strJoin " " (shlex.quote t2 :: ts.map shlex.quote)
        = shlex.join (t2 :: ts) := rfl
    rw [hrest, ih]
    show (shlex.quote t).data ++ [' '] ++ ((shlex.quote t2).data ++ sepJoinChars ts)
        = (shlex.quote t).data ++ sepJoinChars (t2 :: ts)
    simp [sepJoinChars]

/-- Splitting a joined token list recovers exactly the tokens. -/
theorem split_join_ok (ts : List String) : shlex.split (shlex.join ts) = .ok ts := by
  cases ts with
  | nil => rfl
  | cons t ts =>
    show splitCore (shlex.join (t :: ts)).data .idle [] [] = .ok (t :: ts)
    rw [join_data, quote_consume, splitCore_sepJoin]
    have hmk : String.mk t.data = t := String.ext rfl
    rw [hmk]
    rfl

/-- C9: tokenizing a string command with the shell-quoting-aware split,
reassembling the tokens with `shjoin`, and tokenizing again reproduces
the original token list, for every input string the tokenizer accepts
(in particular every one with no unbalanced quote characters). -/
theorem split_shjoin_roundtrip (s : String) (ts : List String)
    (h : shlex.split s = .ok ts) :
    shlex.split (shjoin ts) = .ok ts := by
  unfold shjoin
  exact split_join_ok ts

/-- Witness for C9: the command string with repeated blanks splits into
three tokens, and splitting the rejoined tokens yields them again. -/
theorem split_shjoin_roundtrip_witness :
    shlex.split "echo -n  hi" = .ok ["echo", "-n", "hi"]
    ∧ shlex.split (shjoin ["echo", "-n", "hi"]) = .ok ["echo", "-n", "hi"] :=
  ⟨rfl, split_shjoin_roundtrip "echo -n  hi" ["echo", "-n", "hi"] rfl⟩
